import Mathlib

set_option maxRecDepth 10000

/-
Verification development for the ASSIGNMENT-PLATFORM repository.

The repository ships two implementations of the same service surface:
* an in-browser simulation layer (`DatabaseEngine` / `APIService` in
  public/app.js), which holds the three tables in memory, and
* an Express + SQLite server (the second half of the same file), whose
  routes operate on the persistent tables.

Below, rows of the three tables are records over `String`/`Nat`
(DATETIME values become `Nat` timestamps; comparisons in the source are
strict `>` on dates).  Fallible routes return `Except ApiError _` and the
resulting table state, so frame conditions are provable statements rather
than artifacts of the embedding.  Identifier generation (uuidv4, Date.now)
and wall-clock time are passed in as explicit arguments.
-/

/-- A row of the `users` table (server schema lines: id, email,
password_hash, name, role, created_at; `created_at` is irrelevant to every
claim and omitted). -/
structure User where
  id : String
  email : String
  password_hash : String
  name : String
  role : String
  deriving Repr, DecidableEq

/-- A row of the `assignments` table. -/
structure Assignment where
  id : String
  title : String
  description : String
  deadline : Nat
  instructions : String
  created_by : String
  created_at : Nat
  deriving Repr, DecidableEq

/-- A row of the `submissions` table. -/
structure Submission where
  id : String
  assignment_id : String
  student_id : String
  repo_link : String
  submitted_at : Nat
  status : String
  deriving Repr, DecidableEq

/-- The stored state: the three related tables. -/
structure DBState where
  users : List User
  assignments : List Assignment
  submissions : List Submission
  deriving Repr, DecidableEq

/-- Error taxonomy of the spec, mapped from the HTTP responses of the
server: 400 "required" / client URL rejection → `validationError`;
404 "Assignment not found" → `notFound`; 400 "deadline has passed" →
`deadlinePassed`; 404 "not found or not authorized" →
`notFoundOrForbidden`; 401 "Invalid credentials" → `invalidCredentials`. -/
inductive ApiError where
  | validationError
  | notFound
  | deadlinePassed
  | notFoundOrForbidden
  | invalidCredentials
  deriving Repr, DecidableEq

/-! ## Browser-layer password hashing (DatabaseEngine.hashPassword / verifyPassword)

`hashPassword` is
`'$2b$10$' + btoa(password + 'salt').replace(/[^a-zA-Z0-9]/g, '').substring(0, 50)`.
`btoa` is the platform base64 encoder over the Latin-1 bytes of its input;
it throws `InvalidCharacterError` when a character's code point exceeds
255, which we model with `Option`. -/

/-- The base64 alphabet used by `btoa`. -/
def base64Table : List Char :=
  "ABCDEFGHIJKLMNOPQRSTUVWXYZabcdefghijklmnopqrstuvwxyz0123456789+/".data

/-- The base64 digit for a 6-bit value. -/
def b64char (n : Nat) : Char := base64Table.getD n '?'

/-- Base64-encode a byte list, with `=` padding, as `btoa` does. -/
def b64encode : List Nat → List Char
  | [] => []
  | [a] => [b64char (a / 4), b64char (a % 4 * 16), '=', '=']
  | [a, b] => [b64char (a / 4), b64char (a % 4 * 16 + b / 16), b64char (b % 16 * 4), '=']
  | a :: b :: c :: rest =>
      b64char (a / 4) :: b64char (a % 4 * 16 + b / 16) ::
        b64char (b % 16 * 4 + c / 64) :: b64char (c % 64) :: b64encode rest

/-- The Latin-1 bytes of a character sequence; `none` models the
`InvalidCharacterError` that `btoa` throws on a code point above 255. -/
def toLatin1Bytes : List Char → Option (List Nat)
  | [] => some []
  | c :: cs =>
    if c.toNat ≤ 255 then (toLatin1Bytes cs).map (fun bs => c.toNat :: bs) else none

/-- Model of the platform `btoa`. -/
def btoa (s : String) : Option String :=
  (toLatin1Bytes s.data).map (fun bs => String.mk (b64encode bs))

/-- Characters kept by `.replace(/[^a-zA-Z0-9]/g, '')`. -/
def isAlphaNum (c : Char) : Bool := c.isAlpha || c.isDigit

/-- `DatabaseEngine.hashPassword` (public/app.js): prefix `$2b$10$`, then
the base64 of `password + 'salt'` stripped to alphanumerics and truncated
to 50 characters.  `none` when `btoa` throws. -/
def hashPassword (password : String) : Option String :=
  (btoa (password ++ "salt")).map
    (fun b => "$2b$10$" ++ String.mk ((b.data.filter isAlphaNum).take 50))

/-- `DatabaseEngine.verifyPassword`: re-hash and compare with `===`;
propagates the `btoa` exception of `hashPassword`. -/
def verifyPassword (password hash : String) : Option Bool :=
  (hashPassword password).map (fun h => h == hash)

theorem toLatin1Bytes_total (cs : List Char) (h : ∀ c ∈ cs, c.toNat ≤ 255) :
    ∃ bs, toLatin1Bytes cs = some bs := by
  induction cs with
  | nil => exact ⟨[], rfl⟩
  | cons c cs ih =>
    obtain ⟨bs, hbs⟩ := ih (fun d hd => h d (List.mem_cons_of_mem _ hd))
    refine ⟨c.toNat :: bs, ?_⟩
    simp [toLatin1Bytes, h c (List.mem_cons_self c cs), hbs]

/-- Claim C10 (corrected form): for every password all of whose characters
lie in `btoa`'s Latin-1 domain (code points ≤ 255), the simulated hashing
produces a hash and verification round-trips on it.  Determinism is
inherent: `hashPassword` is a pure function of the password.  (As stated
over every password string the claim fails: see the counterexample with a
character above 255, where `btoa` throws.) -/
theorem c10_hash_roundtrip (p : String) (h : ∀ c ∈ p.data, c.toNat ≤ 255) :
    ∃ hsh, hashPassword p = some hsh ∧ verifyPassword p hsh = some true := by
  have hsalt : ∀ c ∈ p.data ++ ['s', 'a', 'l', 't'], c.toNat ≤ 255 := by
    intro c hc
    rcases List.mem_append.mp hc with h1 | h2
    · exact h c h1
    · fin_cases h2 <;> decide
  obtain ⟨bs, hbs⟩ := toLatin1Bytes_total _ hsalt
  have hhash : hashPassword p =
      some ("$2b$10$" ++ String.mk ((b64encode bs).filter isAlphaNum |>.take 50)) := by
    simp [hashPassword, btoa, hbs]
  refine ⟨_, hhash, ?_⟩
  simp [verifyPassword, hhash]

/-- Witness for C10's corrected theorem at the seeded concrete password. -/
theorem c10_hash_roundtrip_witness :
    ∃ hsh, hashPassword "password123" = some hsh ∧
      verifyPassword "password123" hsh = some true :=
  c10_hash_roundtrip "password123" (by decide)

/-- Counterexample to C10 as stated: for the one-character password `€`
(code point 8364 > 255) the in-browser `btoa` throws, so `hashPassword`
yields no hash at all and `verifyPassword p (hashPassword p)` cannot
return `true` for any candidate hash. -/
theorem c10_counterexample :
    hashPassword "€" = none ∧ ∀ hsh, verifyPassword "€" hsh = none := by
  have hn : hashPassword "€" = none := by decide
  exact ⟨hn, fun hsh => by simp [verifyPassword, hn]⟩

/-! ## Submission service

Server route `app.post('/api/submissions')` (requireRole('student')):
missing `assignmentId`/`repoLink` (JS falsy, i.e. `""`) → 400; unknown
assignment → 404; `now > deadline` → 400 deadline passed; otherwise the
atomic SQLite upsert
`INSERT ... ON CONFLICT(assignment_id, student_id) DO UPDATE SET
 repo_link = excluded.repo_link, submitted_at = CURRENT_TIMESTAMP`.
The `UNIQUE(assignment_id, student_id)` constraint means at most one row
can conflict, so the conflict branch updates the first (only) row with
that key. -/

/-- Lookup of `SELECT * FROM assignments WHERE id = ?`. -/
def findAssignment (assigns : List Assignment) (aid : String) : Option Assignment :=
  assigns.find? (fun a => a.id == aid)

/-- The unique key of the `submissions` table: `(assignment_id, student_id)`. -/
def subKey (aid sid : String) (s : Submission) : Bool :=
  s.assignment_id == aid && s.student_id == sid

/-- The `DO UPDATE` branch of the upsert (also
`DatabaseEngine.executeUpdate`, which uses `find` and mutates the first
matching row): overwrite `repo_link`, refresh `submitted_at`, touch
nothing else. -/
def updateFirst (aid sid link : String) (now : Nat) : List Submission → List Submission
  | [] => []
  | s :: rest =>
    if subKey aid sid s then { s with repo_link := link, submitted_at := now } :: rest
    else s :: updateFirst aid sid link now rest

/-- The atomic upsert keyed on `(assignment_id, student_id)`: update the
conflicting row if one exists, otherwise insert a fresh row with status
`submitted` (the INSERT lists no `status`, so the schema default
`'submitted'` applies; on conflict the freshly generated id is discarded). -/
def upsertSubmission (subs : List Submission) (newId aid sid link : String) (now : Nat) :
    List Submission :=
  if subs.any (subKey aid sid) then updateFirst aid sid link now subs
  else subs ++ [{ id := newId, assignment_id := aid, student_id := sid,
                  repo_link := link, submitted_at := now, status := "submitted" }]

/-- Server `app.post('/api/submissions')` for an authenticated student
`sid`, at wall-clock `now`, with `newId` the freshly generated uuid. -/
def createOrUpdateSubmission (st : DBState) (sid aid link : String) (now : Nat)
    (newId : String) : Except ApiError Unit × DBState :=
  if aid = "" ∨ link = "" then (.error .validationError, st)
  else
    match findAssignment st.assignments aid with
    | none => (.error .notFound, st)
    | some a =>
      if a.deadline < now then (.error .deadlinePassed, st)
      else (.ok (), { st with submissions := upsertSubmission st.submissions newId aid sid link now })

/-- Browser `APIService.createSubmission` for an authenticated student:
it looks the existing row up by `(assignmentId, caller)` and either
updates it through `executeUpdate` or inserts a new row with status
`submitted` — the same first-match upsert as the server, but with **no**
deadline check and **no** link validation of any kind. -/
def apiCreateSubmission (st : DBState) (sid aid link : String) (now : Nat)
    (newId : String) : Except ApiError Unit × DBState :=
  (.ok (), { st with submissions := upsertSubmission st.submissions newId aid sid link now })

/-- Number of stored submission rows keyed by `(aid, sid)`. -/
def countKey (subs : List Submission) (aid sid : String) : Nat :=
  (subs.filter (subKey aid sid)).length

/-! ### Concrete fixture mirroring the seeded data -/

/-- Seeded professor row (bcrypt hash left opaque). -/
def profSmith : User :=
  { id := "prof1", email := "prof.smith@university.edu", password_hash := "bh1",
    name := "Dr. Sarah Smith", role := "professor" }

/-- Seeded student row. -/
def johnDoe : User :=
  { id := "stud1", email := "john.doe@university.edu", password_hash := "bh1",
    name := "John Doe", role := "student" }

/-- Seeded assignment, deadline rendered as timestamp `100`. -/
def assignWeb : Assignment :=
  { id := "assign1", title := "Web Development Project", description := "Create a responsive website",
    deadline := 100, instructions := "Submit your GitHub repository link",
    created_by := "prof1", created_at := 10 }

/-- A state with the seeded users and assignment and no submissions. -/
def stateNoSub : DBState :=
  { users := [profSmith, johnDoe], assignments := [assignWeb], submissions := [] }

/-- Claim C2, amended: on the **server** route, a call whose
`assignmentId` and `repoLink` are both present (non-empty) against an
existing assignment whose deadline lies strictly before `now` fails with
`DeadlinePassed`, and the stored state — every table, including any
existing submission for the pair — is returned unchanged.  (As stated
over every create-or-update-submission call the claim fails: the browser
`APIService.createSubmission` performs no deadline check at all, and on
the server an empty `repoLink` is reported as the missing-field
`ValidationError` even when the deadline has also passed.) -/
theorem c2_deadline_amended (st : DBState) (sid aid link : String) (now : Nat)
    (newId : String) (a : Assignment)
    (haid : aid ≠ "") (hlink : link ≠ "")
    (hfind : findAssignment st.assignments aid = some a)
    (hlate : a.deadline < now) :
    createOrUpdateSubmission st sid aid link now newId = (.error .deadlinePassed, st) := by
  simp [createOrUpdateSubmission, haid, hlink, hfind, hlate]

/-- Witness for C2's amended theorem: the seeded assignment (deadline
100) rejects a submission at time 200 and leaves the state untouched. -/
theorem c2_deadline_amended_witness :
    createOrUpdateSubmission stateNoSub "stud1" "assign1" "https://github.com/johndoe/p" 200 "n1" =
      (.error .deadlinePassed, stateNoSub) :=
  c2_deadline_amended stateNoSub "stud1" "assign1" "https://github.com/johndoe/p" 200 "n1"
    assignWeb (by decide) (by decide) rfl (by decide)

/-- Counterexample to C2 as stated: the in-browser
`APIService.createSubmission` (a cited implementation of
create-or-update-submission) contains no deadline comparison, so at time
200 — strictly after the seeded deadline 100 — the call succeeds and
inserts a row instead of failing with `DeadlinePassed`. -/
theorem c2_counterexample :
    findAssignment stateNoSub.assignments "assign1" = some assignWeb ∧
    assignWeb.deadline < 200 ∧
    apiCreateSubmission stateNoSub "stud1" "assign1" "https://github.com/johndoe/p" 200 "n1" =
      (.ok (), { users := [profSmith, johnDoe], assignments := [assignWeb],
                 submissions := [{ id := "n1", assignment_id := "assign1", student_id := "stud1",
                                   repo_link := "https://github.com/johndoe/p",
                                   submitted_at := 200, status := "submitted" }] }) :=
  ⟨rfl, by decide, rfl⟩

/-! ### Invariants of the upsert -/

theorem subKey_update (aid sid link : String) (now : Nat) (s : Submission) :
    subKey aid sid { s with repo_link := link, submitted_at := now } = subKey aid sid s := rfl

theorem countKey_cons_pos {aid sid : String} {s : Submission} (rest : List Submission)
    (hk : subKey aid sid s = true) :
    countKey (s :: rest) aid sid = countKey rest aid sid + 1 := by
  simp [countKey, List.filter_cons, hk]

theorem countKey_cons_neg {aid sid : String} {s : Submission} (rest : List Submission)
    (hk : subKey aid sid s = false) :
    countKey (s :: rest) aid sid = countKey rest aid sid := by
  simp [countKey, List.filter_cons, hk]

theorem countKey_eq_zero {aid sid : String} :
    ∀ subs : List Submission, countKey subs aid sid = 0 →
      ∀ s ∈ subs, subKey aid sid s = false := by
  intro subs
  induction subs with
  | nil => intro _ s hs; cases hs
  | cons t rest ih =>
    intro h s hs
    by_cases hk : subKey aid sid t = true
    · rw [countKey_cons_pos rest hk] at h; omega
    · rw [Bool.not_eq_true] at hk
      rcases List.mem_cons.mp hs with rfl | hs2
      · exact hk
      · exact ih (by rwa [countKey_cons_neg rest hk] at h) s hs2

theorem countKey_pos {aid sid : String} {subs : List Submission} {s : Submission}
    (hs : s ∈ subs) (hk : subKey aid sid s = true) : 0 < countKey subs aid sid := by
  have : s ∈ subs.filter (subKey aid sid) := List.mem_filter.mpr ⟨hs, hk⟩
  exact List.length_pos.mpr (fun he => by simp [he] at this)

theorem map_update_noKey (aid sid link : String) (now : Nat) :
    ∀ subs : List Submission, (∀ s ∈ subs, subKey aid sid s = false) →
      subs.map (fun s => if subKey aid sid s then
        { s with repo_link := link, submitted_at := now } else s) = subs := by
  intro subs
  induction subs with
  | nil => intro _; rfl
  | cons t rest ih =>
    intro h
    have ht : subKey aid sid t = false := h t (List.mem_cons_self t rest)
    simp only [List.map_cons, ht, Bool.false_eq_true, if_false]
    exact congrArg (List.cons t) (ih (fun s hs => h s (List.mem_cons_of_mem _ hs)))

theorem updateFirst_eq_map (aid sid link : String) (now : Nat) :
    ∀ subs : List Submission, countKey subs aid sid ≤ 1 →
      updateFirst aid sid link now subs =
        subs.map (fun s => if subKey aid sid s then
          { s with repo_link := link, submitted_at := now } else s) := by
  intro subs
  induction subs with
  | nil => intro _; rfl
  | cons t rest ih =>
    intro h
    by_cases hk : subKey aid sid t = true
    · rw [countKey_cons_pos rest hk] at h
      have hzero : countKey rest aid sid = 0 := by omega
      simp only [updateFirst, if_pos hk, List.map_cons]
      exact congrArg (List.cons _)
        (map_update_noKey aid sid link now rest (countKey_eq_zero rest hzero)).symm
    · rw [Bool.not_eq_true] at hk
      rw [countKey_cons_neg rest hk] at h
      simp only [updateFirst, hk, Bool.false_eq_true, if_false, List.map_cons]
      exact congrArg (List.cons t) (ih h)

theorem countKey_map_update (aid sid link : String) (now : Nat) :
    ∀ subs : List Submission,
      countKey (subs.map (fun s => if subKey aid sid s then
        { s with repo_link := link, submitted_at := now } else s)) aid sid =
      countKey subs aid sid := by
  intro subs
  induction subs with
  | nil => rfl
  | cons t rest ih =>
    by_cases hk : subKey aid sid t = true
    · simp only [List.map_cons, if_pos hk]
      rw [countKey_cons_pos _ (by rw [subKey_update]; exact hk), countKey_cons_pos rest hk, ih]
    · rw [Bool.not_eq_true] at hk
      simp only [List.map_cons, hk, Bool.false_eq_true, if_false]
      rw [countKey_cons_neg _ hk, countKey_cons_neg rest hk, ih]

theorem countKey_append (xs ys : List Submission) (aid sid : String) :
    countKey (xs ++ ys) aid sid = countKey xs aid sid + countKey ys aid sid := by
  simp [countKey, List.filter_append]

/-- Under the storage invariant (at most one row per key), the upsert
leaves exactly one row with the key, and that row carries the new link. -/
theorem upsert_invariant (subs : List Submission) (newId aid sid link : String) (now : Nat)
    (h : countKey subs aid sid ≤ 1) :
    countKey (upsertSubmission subs newId aid sid link now) aid sid = 1 ∧
    ∀ s ∈ upsertSubmission subs newId aid sid link now,
      subKey aid sid s = true → s.repo_link = link := by
  unfold upsertSubmission
  by_cases hany : subs.any (subKey aid sid) = true
  · obtain ⟨t, ht, htk⟩ := List.any_eq_true.mp hany
    rw [if_pos hany, updateFirst_eq_map aid sid link now subs h]
    refine ⟨?_, ?_⟩
    · rw [countKey_map_update]
      have := countKey_pos ht htk
      omega
    · intro s hs hsk
      obtain ⟨u, hu, hux⟩ := List.mem_map.mp hs
      by_cases huk : subKey aid sid u = true
      · rw [if_pos huk] at hux; rw [← hux]
      · rw [Bool.not_eq_true] at huk
        rw [if_neg (by simp [huk])] at hux
        rw [← hux] at hsk; rw [hsk] at huk; cases huk
  · have hall : ∀ s ∈ subs, subKey aid sid s = false := by
      intro s hs
      by_contra hc
      exact hany (List.any_eq_true.mpr ⟨s, hs, by simpa using hc⟩)
    rw [if_neg hany]
    constructor
    · have h0 : countKey subs aid sid = 0 := by
        simp only [countKey, List.length_eq_zero, List.filter_eq_nil_iff]
        intro s hs; simp [hall s hs]
      rw [countKey_append, h0]
      simp [countKey, List.filter_cons, subKey]
    · intro s hs hsk
      rcases List.mem_append.mp hs with hs | hs
      · rw [hall s hs] at hsk; cases hsk
      · simp at hs; rw [hs]

/-! ### Sequences of create-or-update-submission calls (claim C1)

A call fixes the student and assignment; the submitted link, the wall
clock, and the generated id vary per call. -/

/-- One call to the server submission route. -/
structure SubmitCall where
  repoLink : String
  now : Nat
  newId : String
  deriving Repr, DecidableEq

/-- Acceptance of a call: it clears every precondition check of the route
(fields present, assignment exists, deadline not passed).  Acceptance
depends only on the call and the assignments table, which the route never
modifies. -/
def acceptedCall (assigns : List Assignment) (aid : String) (c : SubmitCall) : Bool :=
  if aid = "" ∨ c.repoLink = "" then false
  else
    match findAssignment assigns aid with
    | none => false
    | some a => if a.deadline < c.now then false else true

/-- The most recent accepted call of a sequence, if any. -/
def lastAccepted (assigns : List Assignment) (aid : String) : List SubmitCall → Option SubmitCall
  | [] => none
  | c :: cs =>
    match lastAccepted assigns aid cs with
    | some c2 => some c2
    | none => if acceptedCall assigns aid c then some c else none

/-- Run a finite sequence of calls against the server route, threading the
stored state. -/
def runCalls (st : DBState) (sid aid : String) : List SubmitCall → DBState
  | [] => st
  | c :: cs => runCalls (createOrUpdateSubmission st sid aid c.repoLink c.now c.newId).2 sid aid cs

theorem step_frame (st : DBState) (sid aid link : String) (now : Nat) (newId : String) :
    (createOrUpdateSubmission st sid aid link now newId).2.users = st.users ∧
    (createOrUpdateSubmission st sid aid link now newId).2.assignments = st.assignments := by
  unfold createOrUpdateSubmission
  by_cases h1 : aid = "" ∨ link = ""
  · simp [h1]
  · rw [if_neg h1]
    cases hf : findAssignment st.assignments aid with
    | none => exact ⟨rfl, rfl⟩
    | some a => by_cases h2 : a.deadline < now <;> simp [h2]

theorem step_rejected (st : DBState) (sid aid : String) (c : SubmitCall)
    (h : acceptedCall st.assignments aid c = false) :
    (createOrUpdateSubmission st sid aid c.repoLink c.now c.newId).2 = st := by
  unfold acceptedCall at h
  by_cases h1 : aid = "" ∨ c.repoLink = ""
  · simp [createOrUpdateSubmission, h1]
  · rw [if_neg h1] at h
    cases hf : findAssignment st.assignments aid with
    | none => simp [createOrUpdateSubmission, h1, hf]
    | some a =>
      rw [hf] at h
      by_cases h2 : a.deadline < c.now
      · simp [createOrUpdateSubmission, h1, hf, h2]
      · simp [h2] at h

theorem step_accepted (st : DBState) (sid aid : String) (c : SubmitCall)
    (h : acceptedCall st.assignments aid c = true) :
    createOrUpdateSubmission st sid aid c.repoLink c.now c.newId =
      (.ok (), { st with
        submissions := upsertSubmission st.submissions c.newId aid sid c.repoLink c.now }) := by
  unfold acceptedCall at h
  by_cases h1 : aid = "" ∨ c.repoLink = ""
  · rw [if_pos h1] at h; cases h
  · rw [if_neg h1] at h
    cases hf : findAssignment st.assignments aid with
    | none => rw [hf] at h; simp at h
    | some a =>
      rw [hf] at h
      by_cases h2 : a.deadline < c.now
      · simp [h2] at h
      · simp [createOrUpdateSubmission, h1, hf, h2]

theorem lastAccepted_cons (assigns : List Assignment) (aid : String) (c : SubmitCall)
    (cs : List SubmitCall) :
    lastAccepted assigns aid (c :: cs) =
      match lastAccepted assigns aid cs with
      | some c2 => some c2
      | none => if acceptedCall assigns aid c then some c else none := rfl

/-- Core induction for claim C1: starting from any state carrying at most
one row for the key, a call sequence with no accepted call leaves the
state untouched, and one with a most recent accepted call leaves exactly
one row for the key, carrying that call's link. -/
theorem runCalls_main (sid aid : String) :
    ∀ (calls : List SubmitCall) (st : DBState), countKey st.submissions aid sid ≤ 1 →
      (lastAccepted st.assignments aid calls = none → runCalls st sid aid calls = st) ∧
      (∀ c, lastAccepted st.assignments aid calls = some c →
        countKey (runCalls st sid aid calls).submissions aid sid = 1 ∧
        ∀ s ∈ (runCalls st sid aid calls).submissions,
          subKey aid sid s = true → s.repo_link = c.repoLink) := by
  intro calls
  induction calls with
  | nil => exact fun st _ => ⟨fun _ => rfl, fun c hc => by cases hc⟩
  | cons c0 cs ih =>
    intro st hst
    have hrun : runCalls st sid aid (c0 :: cs) =
        runCalls (createOrUpdateSubmission st sid aid c0.repoLink c0.now c0.newId).2 sid aid cs :=
      rfl
    by_cases hacc : acceptedCall st.assignments aid c0 = true
    · -- the head call is accepted: the state advances by one upsert
      have hstep := step_accepted st sid aid c0 hacc
      have hsubs1 : (createOrUpdateSubmission st sid aid c0.repoLink c0.now c0.newId).2.submissions
          = upsertSubmission st.submissions c0.newId aid sid c0.repoLink c0.now := by
        rw [hstep]
      have hassign1 : (createOrUpdateSubmission st sid aid c0.repoLink c0.now c0.newId).2.assignments
          = st.assignments := (step_frame st sid aid c0.repoLink c0.now c0.newId).2
      have hup := upsert_invariant st.submissions c0.newId aid sid c0.repoLink c0.now hst
      have hih := ih (createOrUpdateSubmission st sid aid c0.repoLink c0.now c0.newId).2
        (by rw [hsubs1]; exact hup.1.le)
      constructor
      · intro hnone
        rw [lastAccepted_cons] at hnone
        cases hl : lastAccepted st.assignments aid cs with
        | some c2 => rw [hl] at hnone; cases hnone
        | none => rw [hl] at hnone; simp [hacc] at hnone
      · intro c hc
        rw [lastAccepted_cons] at hc
        rw [hrun]
        cases hl : lastAccepted st.assignments aid cs with
        | some c2 =>
          rw [hl] at hc
          simp at hc
          subst hc
          exact hih.2 c2 (by rw [hassign1, hl])
        | none =>
          rw [hl] at hc
          simp [hacc] at hc
          subst hc
          have hfix : runCalls (createOrUpdateSubmission st sid aid c0.repoLink c0.now c0.newId).2
              sid aid cs = (createOrUpdateSubmission st sid aid c0.repoLink c0.now c0.newId).2 :=
            hih.1 (by rw [hassign1, hl])
          rw [hfix, hsubs1]
          exact hup
    · -- the head call is rejected: the state is unchanged
      rw [Bool.not_eq_true] at hacc
      have hst1 : (createOrUpdateSubmission st sid aid c0.repoLink c0.now c0.newId).2 = st :=
        step_rejected st sid aid c0 hacc
      have hlast : lastAccepted st.assignments aid (c0 :: cs) =
          lastAccepted st.assignments aid cs := by
        rw [lastAccepted_cons]
        cases hl : lastAccepted st.assignments aid cs with
        | some c2 => rfl
        | none => simp [hacc]
      rw [hrun, hst1, hlast]
      exact ih st hst

/-- Claim C1, amended: starting from a state with no submission row for
`(aid, sid)`, after any finite sequence of calls to the server
create-or-update-submission route, **if at least one call was accepted**
then exactly one submission row for `(aid, sid)` exists and its
`repo_link` is the link of the most recent accepted call; if no call was
accepted, no row for the pair exists.  (As stated — "exactly one row"
after *every* sequence — the claim fails for sequences whose calls are all
rejected; see the counterexample.) -/
theorem c1_upsert_sequence (sid aid : String) (st : DBState) (calls : List SubmitCall)
    (h0 : countKey st.submissions aid sid = 0) :
    (lastAccepted st.assignments aid calls = none →
      countKey (runCalls st sid aid calls).submissions aid sid = 0) ∧
    (∀ c, lastAccepted st.assignments aid calls = some c →
      countKey (runCalls st sid aid calls).submissions aid sid = 1 ∧
      ∀ s ∈ (runCalls st sid aid calls).submissions,
        subKey aid sid s = true → s.repo_link = c.repoLink) := by
  have h := runCalls_main sid aid calls st (by omega)
  exact ⟨fun hn => by rw [h.1 hn]; exact h0, h.2⟩

/-- Witness for C1's amended theorem: two accepted submissions by the
seeded student against the seeded assignment leave exactly one row, and
its link is the second call's link. -/
theorem c1_upsert_sequence_witness :
    countKey (runCalls stateNoSub "stud1" "assign1"
      [⟨"https://github.com/johndoe/x", 10, "n1"⟩,
       ⟨"https://github.com/johndoe/y", 20, "n2"⟩]).submissions "assign1" "stud1" = 1 ∧
    ∀ s ∈ (runCalls stateNoSub "stud1" "assign1"
      [⟨"https://github.com/johndoe/x", 10, "n1"⟩,
       ⟨"https://github.com/johndoe/y", 20, "n2"⟩]).submissions,
      subKey "assign1" "stud1" s = true → s.repo_link = "https://github.com/johndoe/y" :=
  (c1_upsert_sequence "stud1" "assign1" stateNoSub
      [⟨"https://github.com/johndoe/x", 10, "n1"⟩,
       ⟨"https://github.com/johndoe/y", 20, "n2"⟩] rfl).2
    ⟨"https://github.com/johndoe/y", 20, "n2"⟩ rfl

/-- Counterexample to C1 as stated: a one-call sequence whose only call is
rejected by the deadline check (time 200 against deadline 100) leaves the
state with **zero** rows for the pair, not "exactly one". -/
theorem c1_counterexample :
    countKey stateNoSub.submissions "assign1" "stud1" = 0 ∧
    runCalls stateNoSub "stud1" "assign1" [⟨"https://github.com/johndoe/x", 200, "n1"⟩] =
      stateNoSub ∧
    ¬ countKey (runCalls stateNoSub "stud1" "assign1"
        [⟨"https://github.com/johndoe/x", 200, "n1"⟩]).submissions "assign1" "stud1" = 1 := by
  decide

/-- Claim C8 (confirmed): under the storage invariant (at most one row per
key — enforced by `UNIQUE(assignment_id, student_id)`), an accepted call
with an existing row for `(aid, sid)` rewrites exactly that row's
`repo_link` and `submitted_at` in place — the update `{ s with repo_link,
submitted_at }` keeps `id`, `status`, `assignment_id`, `student_id` and
every other row untouched — while an accepted call with no existing row
appends a fresh row with status `"submitted"`. -/
theorem c8_resubmission_frame (st : DBState) (sid aid link : String) (now : Nat)
    (newId : String) (a : Assignment)
    (hinv : countKey st.submissions aid sid ≤ 1)
    (haid : aid ≠ "") (hlink : link ≠ "")
    (hfind : findAssignment st.assignments aid = some a)
    (hdl : ¬ a.deadline < now) :
    (createOrUpdateSubmission st sid aid link now newId).1 = .ok () ∧
    (st.submissions.any (subKey aid sid) = true →
      (createOrUpdateSubmission st sid aid link now newId).2.submissions =
        st.submissions.map (fun s => if subKey aid sid s then
          { s with repo_link := link, submitted_at := now } else s)) ∧
    (st.submissions.any (subKey aid sid) = false →
      (createOrUpdateSubmission st sid aid link now newId).2.submissions =
        st.submissions ++ [{ id := newId, assignment_id := aid, student_id := sid,
                             repo_link := link, submitted_at := now, status := "submitted" }]) := by
  have hres : createOrUpdateSubmission st sid aid link now newId =
      (.ok (), { st with submissions := upsertSubmission st.submissions newId aid sid link now }) := by
    simp [createOrUpdateSubmission, haid, hlink, hfind, hdl]
  refine ⟨by rw [hres], ?_, ?_⟩
  · intro hany
    rw [hres]
    show upsertSubmission st.submissions newId aid sid link now = _
    unfold upsertSubmission
    rw [if_pos hany]
    exact updateFirst_eq_map aid sid link now st.submissions hinv
  · intro hany
    rw [hres]
    show upsertSubmission st.submissions newId aid sid link now = _
    unfold upsertSubmission
    rw [hany]
    simp

/-- Witness for C8: the seeded student resubmits against an existing row
whose status is `graded`; the row keeps its id and status, only
`repo_link` and `submitted_at` change. -/
theorem c8_resubmission_frame_witness :
    (createOrUpdateSubmission
      { users := [profSmith, johnDoe], assignments := [assignWeb],
        submissions := [{ id := "sub1", assignment_id := "assign1", student_id := "stud1",
                          repo_link := "https://github.com/johndoe/old", submitted_at := 5,
                          status := "graded" }] }
      "stud1" "assign1" "https://github.com/johndoe/new" 20 "n9").2.submissions =
    [{ id := "sub1", assignment_id := "assign1", student_id := "stud1",
       repo_link := "https://github.com/johndoe/new", submitted_at := 20,
       status := "graded" }] := by
  have h := (c8_resubmission_frame
    { users := [profSmith, johnDoe], assignments := [assignWeb],
      submissions := [{ id := "sub1", assignment_id := "assign1", student_id := "stud1",
                        repo_link := "https://github.com/johndoe/old", submitted_at := 5,
                        status := "graded" }] }
    "stud1" "assign1" "https://github.com/johndoe/new" 20 "n9" assignWeb
    (by decide) (by decide) (by decide) rfl (by decide)).2.1 rfl
  exact h.trans (by decide)

/-! ## Assignment service

Server `GET /api/assignments` (requireAuth, any role) runs
`SELECT a.*, u.name FROM assignments a JOIN users u ON a.created_by = u.id
 ORDER BY a.created_at DESC` — note: **no** `WHERE created_by` filter.
The browser `APIService.getAssignments` filters by the professor caller
(`WHERE created_by = ?`, served by the `assignments_created_by` index,
which lists rows in table insertion order) and returns the table itself
for any other caller; `DatabaseEngine.executeSelect` honours no `ORDER BY`
clause whatsoever.  `ORDER BY ... DESC` is modelled as a sort that is
total on the sort key; `users.id` and `assignments.id` are primary keys,
so the inner joins keep each row at most once and are modelled as
existence filters. -/

/-- Insert an element into a descending-sorted list (model of the effect
of `ORDER BY key DESC`). -/
def insertDesc {α : Type} (key : α → Nat) (x : α) : List α → List α
  | [] => [x]
  | y :: ys => if key y ≤ key x then x :: y :: ys else y :: insertDesc key x ys

/-- Sort a list into descending order of `key`. -/
def sortDesc {α : Type} (key : α → Nat) : List α → List α
  | [] => []
  | x :: xs => insertDesc key x (sortDesc key xs)

/-- The "descending by key" order: later elements have keys no larger. -/
def descBy {α : Type} (key : α → Nat) (a b : α) : Prop := key b ≤ key a

instance {α : Type} (key : α → Nat) : DecidableRel (descBy key) :=
  fun a b => Nat.decLe (key b) (key a)

theorem perm_insertDesc {α : Type} (key : α → Nat) (x : α) :
    ∀ l : List α, List.Perm (insertDesc key x l) (x :: l) := by
  intro l
  induction l with
  | nil => exact List.Perm.refl _
  | cons y ys ih =>
    by_cases h : key y ≤ key x
    · simp only [insertDesc, if_pos h]
      exact List.Perm.refl _
    · simp only [insertDesc, if_neg h]
      exact (ih.cons y).trans (List.Perm.swap x y ys)

theorem perm_sortDesc {α : Type} (key : α → Nat) :
    ∀ l : List α, List.Perm (sortDesc key l) l := by
  intro l
  induction l with
  | nil => exact List.Perm.refl _
  | cons x xs ih => exact (perm_insertDesc key x (sortDesc key xs)).trans (ih.cons x)

theorem sorted_insertDesc {α : Type} (key : α → Nat) (x : α) :
    ∀ l : List α, List.Sorted (descBy key) l → List.Sorted (descBy key) (insertDesc key x l) := by
  intro l
  induction l with
  | nil => intro _; simp [insertDesc]
  | cons y ys ih =>
    intro h
    rw [List.sorted_cons] at h
    by_cases hk : key y ≤ key x
    · simp only [insertDesc, if_pos hk]
      rw [List.sorted_cons]
      refine ⟨?_, List.sorted_cons.mpr h⟩
      intro b hb
      rcases List.mem_cons.mp hb with rfl | hb2
      · exact hk
      · exact le_trans (h.1 b hb2) hk
    · simp only [insertDesc, if_neg hk]
      rw [List.sorted_cons]
      refine ⟨?_, ih h.2⟩
      intro b hb
      rcases List.mem_cons.mp ((perm_insertDesc key x ys).mem_iff.mp hb) with rfl | hb2
      · exact le_of_not_le hk
      · exact h.1 b hb2

theorem sorted_sortDesc {α : Type} (key : α → Nat) :
    ∀ l : List α, List.Sorted (descBy key) (sortDesc key l) := by
  intro l
  induction l with
  | nil => simp [sortDesc]
  | cons x xs ih => exact sorted_insertDesc key x _ ih

/-- Server `GET /api/assignments`: all assignments joined with their
creator, newest first — the caller's identity and role are never
consulted. -/
def serverListAssignments (st : DBState) : List Assignment :=
  sortDesc (fun a => a.created_at)
    (st.assignments.filter (fun a => st.users.any (fun u => u.id == a.created_by)))

/-- Server `GET /api/submissions`: professors get every submission (joined
with student and assignment), students only rows with their
`student_id`, newest first. -/
def serverListSubmissions (st : DBState) (callerId role : String) : List Submission :=
  if role = "professor" then
    sortDesc (fun s => s.submitted_at)
      (st.submissions.filter (fun s =>
        st.users.any (fun u => u.id == s.student_id) &&
        st.assignments.any (fun a => a.id == s.assignment_id)))
  else
    sortDesc (fun s => s.submitted_at)
      (st.submissions.filter (fun s =>
        s.student_id == callerId && st.assignments.any (fun a => a.id == s.assignment_id)))

/-- Browser `APIService.getAssignments`: professor callers get
`WHERE created_by = ?` (their own rows, in insertion order), everyone
else the whole table — in insertion order, never sorted. -/
def apiGetAssignments (st : DBState) (caller : User) : List Assignment :=
  if caller.role = "professor" then st.assignments.filter (fun a => a.created_by == caller.id)
  else st.assignments

/-- Browser `APIService.getSubmissions`: professors the whole table,
students `WHERE student_id = ?` — again in insertion order. -/
def apiGetSubmissions (st : DBState) (caller : User) : List Submission :=
  if caller.role = "professor" then st.submissions
  else st.submissions.filter (fun s => s.student_id == caller.id)

/-! ### Fixture with two professors -/

/-- A professor. -/
def profAlpha : User :=
  { id := "p1", email := "alpha@university.edu", password_hash := "h", name := "Prof Alpha",
    role := "professor" }

/-- A second professor. -/
def profBeta : User :=
  { id := "p2", email := "beta@university.edu", password_hash := "h", name := "Prof Beta",
    role := "professor" }

/-- Assignment created by `profAlpha` at time 10. -/
def assignA1 : Assignment :=
  { id := "a1", title := "Alpha 1", description := "", deadline := 100, instructions := "",
    created_by := "p1", created_at := 10 }

/-- Assignment created by `profBeta` at time 20. -/
def assignB2 : Assignment :=
  { id := "a2", title := "Beta 2", description := "", deadline := 100, instructions := "",
    created_by := "p2", created_at := 20 }

/-- State where two professors each own one assignment. -/
def stateTwoProfs : DBState :=
  { users := [profAlpha, profBeta], assignments := [assignA1, assignB2], submissions := [] }

/-- Claim C4, amended: the **browser** `APIService.getAssignments` returns
exactly the caller's own assignments for a professor and the whole table
for any other caller, but the **server** `GET /api/assignments` returns
every assignment (with an existing creator) regardless of who asks — so
on the server a professor does see other professors' assignments. -/
theorem c4_scoping_amended (st : DBState) (caller : User) :
    (caller.role = "professor" →
      ∀ a, a ∈ apiGetAssignments st caller ↔ a ∈ st.assignments ∧ a.created_by = caller.id) ∧
    (caller.role ≠ "professor" → apiGetAssignments st caller = st.assignments) ∧
    (∀ a, a ∈ serverListAssignments st ↔
      a ∈ st.assignments ∧ ∃ u ∈ st.users, u.id = a.created_by) := by
  refine ⟨?_, ?_, ?_⟩
  · intro hrole a
    simp [apiGetAssignments, hrole, List.mem_filter]
  · intro hrole
    simp [apiGetAssignments, hrole]
  · intro a
    unfold serverListAssignments
    rw [(perm_sortDesc _ _).mem_iff]
    simp [List.mem_filter, List.any_eq_true]

/-- Witness for C4's amended theorem: professor Alpha's browser list does
contain Alpha's own assignment. -/
theorem c4_scoping_amended_witness :
    assignA1 ∈ apiGetAssignments stateTwoProfs profAlpha :=
  ((c4_scoping_amended stateTwoProfs profAlpha).1 rfl assignA1).mpr ⟨by decide, rfl⟩

/-- Counterexample to C4 as stated: professor Alpha (`role =
"professor"`) queries the server list endpoint and receives professor
Beta's assignment — the server result is caller-independent, so "no
professor's result ever contains an assignment created by a different
professor" fails. -/
theorem c4_counterexample :
    profAlpha.role = "professor" ∧
    serverListAssignments stateTwoProfs = [assignB2, assignA1] ∧
    assignB2 ∈ serverListAssignments stateTwoProfs ∧
    assignB2.created_by ≠ profAlpha.id := by
  refine ⟨rfl, rfl, by decide, by decide⟩

/-- Claim C5, amended: both **server** list endpoints return lists sorted
by the respective timestamp in descending order (most recent first); the
**browser** simulation's `executeSelect` ignores `ORDER BY` and returns
rows in table insertion order, so its lists are not sorted. -/
theorem c5_ordering_amended (st : DBState) (callerId role : String) :
    List.Sorted (descBy (fun a => a.created_at)) (serverListAssignments st) ∧
    List.Sorted (descBy (fun s => s.submitted_at)) (serverListSubmissions st callerId role) := by
  constructor
  · exact sorted_sortDesc _ _
  · unfold serverListSubmissions
    split
    · exact sorted_sortDesc _ _
    · exact sorted_sortDesc _ _

/-- Counterexample to C5 as stated: the browser list of assignments for a
student caller comes back in insertion order — the older assignment
(created at 10) first — which is not sorted most-recent-first. -/
theorem c5_counterexample :
    apiGetAssignments stateTwoProfs johnDoe = [assignA1, assignB2] ∧
    assignA1.created_at < assignB2.created_at ∧
    ¬ List.Sorted (descBy (fun a => a.created_at)) (apiGetAssignments stateTwoProfs johnDoe) := by
  refine ⟨rfl, by decide, ?_⟩
  intro hs
  rw [show apiGetAssignments stateTwoProfs johnDoe = [assignA1, assignB2] from rfl] at hs
  have hd := (List.sorted_cons.mp hs).1 assignB2 (List.mem_cons_self _ _)
  exact absurd hd (by decide)

/-! ## Assignment mutation routes

`PUT /api/assignments/:id` (professor): missing title/deadline → 400;
then `UPDATE assignments SET ... WHERE id = ? AND created_by = ?`; zero
changed rows → 404 "Assignment not found or not authorized".
`DELETE /api/assignments/:id` (professor):
`DELETE FROM assignments WHERE id = ? AND created_by = ?`; zero changed
rows → the same 404.  The server never issues
`PRAGMA foreign_keys = ON` (SQLite leaves foreign keys off by default)
and its own `CREATE TABLE submissions` declares its foreign keys without
`ON DELETE CASCADE`, so a delete touches only the `assignments` table and
leaves referencing submissions in place. -/

/-- Server `PUT /api/assignments/:id` for the authenticated professor
`callerId`.  A missing/empty body field is JS-falsy: title is modelled as
`""`, the deadline as `none`. -/
def serverUpdateAssignment (st : DBState) (callerId aid title description : String)
    (deadline : Option Nat) (instructions : String) : Except ApiError Unit × DBState :=
  if title = "" ∨ deadline = none then (.error .validationError, st)
  else if st.assignments.any (fun a => a.id == aid && a.created_by == callerId) then
    (.ok (), { st with assignments := st.assignments.map (fun a =>
      if a.id == aid && a.created_by == callerId then
        { a with title := title, description := description,
                 deadline := deadline.getD 0, instructions := instructions } else a) })
  else (.error .notFoundOrForbidden, st)

/-- Server `DELETE /api/assignments/:id` for the authenticated professor
`callerId`: remove the row matching both id and owner; report 404 when
nothing matched.  Submissions are untouched (no cascade: foreign-key
enforcement is off and the server schema declares none). -/
def serverDeleteAssignment (st : DBState) (callerId aid : String) :
    Except ApiError Unit × DBState :=
  if (st.assignments.filter (fun a => !(a.id == aid && a.created_by == callerId))).length
      = st.assignments.length then
    (.error .notFoundOrForbidden, st)
  else
    (.ok (), { st with assignments :=
      st.assignments.filter (fun a => !(a.id == aid && a.created_by == callerId)) })

/-- Claim C7, amended: when no assignment with the given id is owned by
the professor caller (including nonexistent ids), `deleteAssignment`
always fails with the single collapsed `NotFoundOrForbidden` error, and
`updateAssignment` does so **provided its title and deadline fields are
present**; both leave the stored state identical.  (As stated the claim
fails for update calls with a missing title or deadline, which the route
reports as the missing-field `ValidationError` before ever consulting
ownership — still without mutating state.) -/
theorem c7_notfound_amended (st : DBState) (callerId aid title description : String)
    (deadline : Option Nat) (instructions : String)
    (hown : ∀ a ∈ st.assignments, ¬(a.id = aid ∧ a.created_by = callerId))
    (htitle : title ≠ "") (hdead : deadline ≠ none) :
    serverUpdateAssignment st callerId aid title description deadline instructions =
      (.error .notFoundOrForbidden, st) ∧
    serverDeleteAssignment st callerId aid = (.error .notFoundOrForbidden, st) := by
  have hmatch : ∀ a ∈ st.assignments, (a.id == aid && a.created_by == callerId) = false := by
    intro a ha
    cases hb : (a.id == aid && a.created_by == callerId) with
    | false => rfl
    | true =>
      simp only [Bool.and_eq_true, beq_iff_eq] at hb
      exact absurd hb (hown a ha)
  constructor
  · unfold serverUpdateAssignment
    rw [if_neg (by tauto), if_neg ?_]
    intro hc
    obtain ⟨a, ha, hx⟩ := List.any_eq_true.mp hc
    rw [hmatch a ha] at hx
    cases hx
  · unfold serverDeleteAssignment
    rw [List.filter_eq_self.mpr (fun a ha => by rw [hmatch a ha]; rfl), if_pos rfl]

/-- Witness for C7's amended theorem: professor Alpha targets professor
Beta's assignment; both mutation routes fail with the collapsed error and
the state is unchanged. -/
theorem c7_notfound_amended_witness :
    serverUpdateAssignment stateTwoProfs "p1" "a2" "New title" "d" (some 300) "i" =
      (.error .notFoundOrForbidden, stateTwoProfs) ∧
    serverDeleteAssignment stateTwoProfs "p1" "a2" = (.error .notFoundOrForbidden, stateTwoProfs) :=
  c7_notfound_amended stateTwoProfs "p1" "a2" "New title" "d" (some 300) "i"
    (by decide) (by decide) (by decide)

/-- Counterexample to C7 as stated: professor Alpha owns no assignment
with id `a2`, yet an update call whose title is missing fails with
`ValidationError`, not with the collapsed `NotFoundOrForbidden`. -/
theorem c7_counterexample :
    (∀ a ∈ stateTwoProfs.assignments, ¬(a.id = "a2" ∧ a.created_by = "p1")) ∧
    serverUpdateAssignment stateTwoProfs "p1" "a2" "" "d" (some 300) "i" =
      (.error .validationError, stateTwoProfs) ∧
    ApiError.validationError ≠ ApiError.notFoundOrForbidden :=
  ⟨by decide, rfl, by decide⟩

/-! ### Claim C6: deletion does not cascade -/

/-- The seeded submission of student `stud1` against `assign1`. -/
def subWeb : Submission :=
  { id := "sub1", assignment_id := "assign1", student_id := "stud1",
    repo_link := "https://github.com/johndoe/web-dev-project", submitted_at := 50,
    status := "submitted" }

/-- Seed-like state: the professor's assignment has one submission. -/
def stateSeed : DBState :=
  { users := [profSmith, johnDoe], assignments := [assignWeb], submissions := [subWeb] }

/-- Claim C6 (code bug, evaluated at the failing input): the owning
professor successfully deletes the assignment, yet the submission row
referencing it survives — `DELETE FROM assignments WHERE id = ? AND
created_by = ?` is the only statement the route runs, SQLite foreign keys
are never switched on, and the server schema carries no `ON DELETE
CASCADE` (the separate init script's schema does declare it, which is the
recorded intent the route fails to honour).  The claim and spec say every
referencing submission is removed; the code leaves it orphaned. -/
theorem c6_no_cascade_eval :
    serverDeleteAssignment stateSeed "prof1" "assign1" =
      (.ok (), { users := [profSmith, johnDoe], assignments := [], submissions := [subWeb] }) ∧
    subWeb.assignment_id = "assign1" ∧
    (serverDeleteAssignment stateSeed "prof1" "assign1").2.submissions ≠ [] :=
  ⟨rfl, rfl, by decide⟩

/-! ## Authentication (claim C9)

Server `POST /api/auth/login`: missing email or password (JS falsy, i.e.
`""`) → 400 "Email and password are required"; `SELECT * FROM users WHERE
email = ?` (exact, case-sensitive match; `db.get` returns the first row);
no row or failed `bcrypt.compare` → 401 "Invalid credentials"; success →
`{ id, email, name, role }` — the response object is built by listing
exactly those four fields, so `password_hash` never leaves the server.
`bcrypt.compare` is an external primitive and enters as the `verify`
parameter. -/

/-- The profile a successful login returns; by construction it has no
credential-hash field. -/
structure LoginProfile where
  id : String
  email : String
  name : String
  role : String
  deriving Repr, DecidableEq

/-- Server `POST /api/auth/login`. -/
def serverLogin (verify : String → String → Bool) (st : DBState) (email password : String) :
    Except ApiError LoginProfile :=
  if email = "" ∨ password = "" then .error .validationError
  else
    match st.users.find? (fun u => u.email == email) with
    | none => .error .invalidCredentials
    | some u =>
      if verify password u.password_hash then .ok ⟨u.id, u.email, u.name, u.role⟩
      else .error .invalidCredentials

/-- Claim C9, amended: for every **non-empty** email and password, login
fails with `InvalidCredentials` both when no user carries that exact email
and when verification against the stored hash fails; on success it
returns exactly the four-field profile `{id, email, name, role}`, with the
credential hash stripped.  (As stated over every email/password the claim
fails: an empty field short-circuits into the missing-field
`ValidationError` before the user lookup; see the counterexample.) -/
theorem c9_login_amended (verify : String → String → Bool) (st : DBState)
    (email password : String) (he : email ≠ "") (hp : password ≠ "") :
    (st.users.find? (fun u => u.email == email) = none →
      serverLogin verify st email password = .error .invalidCredentials) ∧
    (∀ u, st.users.find? (fun u2 => u2.email == email) = some u →
      verify password u.password_hash = false →
      serverLogin verify st email password = .error .invalidCredentials) ∧
    (∀ u, st.users.find? (fun u2 => u2.email == email) = some u →
      verify password u.password_hash = true →
      serverLogin verify st email password = .ok ⟨u.id, u.email, u.name, u.role⟩) := by
  refine ⟨?_, ?_, ?_⟩
  · intro hfind
    simp [serverLogin, he, hp, hfind]
  · intro u hfind hv
    simp [serverLogin, he, hp, hfind, hv]
  · intro u hfind hv
    simp [serverLogin, he, hp, hfind, hv]

/-- Witness for C9's amended theorem: the seeded professor logs in with a
verifier that accepts the stored hash, and receives the four-field
profile. -/
theorem c9_login_amended_witness :
    serverLogin (fun _ h => h == "bh1") stateSeed "prof.smith@university.edu" "password123" =
      .ok ⟨"prof1", "prof.smith@university.edu", "Dr. Sarah Smith", "professor"⟩ :=
  (c9_login_amended (fun _ h => h == "bh1") stateSeed "prof.smith@university.edu" "password123"
    (by decide) (by decide)).2.2 profSmith rfl rfl

/-- Counterexample to C9 as stated: with the empty email — which no user
carries — login answers the missing-field `ValidationError`, not
`InvalidCredentials`, even under a verifier that accepts everything. -/
theorem c9_counterexample :
    stateSeed.users.find? (fun u => u.email == "") = none ∧
    serverLogin (fun _ _ => true) stateSeed "" "password123" = .error .validationError ∧
    ApiError.validationError ≠ ApiError.invalidCredentials :=
  ⟨rfl, rfl, by decide⟩

/-! ## Repository-link validation (claim C3)

The **only** URL validation in the system lives in the browser submission
form handler: `new URL(repoLink)` (throws on a malformed URL) followed by
`repoLink.includes('github.com')` — a substring test on the whole URL
text, not a check of the URL's host.  The server route checks mere
presence of `repoLink` and stores anything non-empty.  `new URL` is a
platform builtin, modelled here for the hierarchical `scheme://host/...`
shape relevant to repository links: a non-empty alphabetic scheme,
`://`, a non-empty host running to the first `/`, `?` or `#`, and the
remainder. -/

/-- Bool test with which `String.includes` scans: does `need` lead the
character list? -/
def leadsWith : List Char → List Char → Bool
  | [], _ => true
  | _ :: _, [] => false
  | c :: cs, d :: ds => c == d && leadsWith cs ds

/-- Substring containment over character lists (model of
`String.prototype.includes`). -/
def hasSub (need : List Char) : List Char → Bool
  | [] => leadsWith need []
  | c :: cs => leadsWith need (c :: cs) || hasSub need cs

/-- `hay.includes(need)` from the form handler. -/
def strIncludes (hay need : String) : Bool := hasSub need.data hay.data

/-- Characters that may appear in the host portion (the host runs to the
first `/`, `?` or `#`). -/
def hostChar (c : Char) : Bool := !(c == '/' || c == '?' || c == '#')

/-- Parsed hierarchical URL: scheme, host, and the rest. -/
structure URLRec where
  scheme : String
  host : String
  rest : String
  deriving Repr, DecidableEq

/-- Split a character list at the first `://`. -/
def splitScheme : List Char → Option (List Char × List Char)
  | [] => none
  | [_] => none
  | [_, _] => none
  | c :: d1 :: d2 :: rest =>
    if c = ':' then
      if d1 = '/' ∧ d2 = '/' then some ([], rest) else none
    else
      match splitScheme (d1 :: d2 :: rest) with
      | some (sch, r) => some (c :: sch, r)
      | none => none

/-- Model of the platform `new URL` for hierarchical URLs: `none` models
the `TypeError` the constructor throws on malformed input. -/
def jsURL (s : String) : Option URLRec :=
  match splitScheme s.data with
  | none => none
  | some (sch, r) =>
    if sch ≠ [] ∧ sch.all Char.isAlpha ∧ r.takeWhile hostChar ≠ [] then
      some ⟨String.mk sch, String.mk (r.takeWhile hostChar), String.mk (r.dropWhile hostChar)⟩
    else none

/-- The submission form handler's validation step: `new URL(repoLink)`
then `repoLink.includes('github.com')`; either failure surfaces as a
validation error to the user. -/
def validateRepoLink (link : String) : Except ApiError Unit :=
  match jsURL link with
  | none => .error .validationError
  | some _ => if strIncludes link "github.com" then .ok () else .error .validationError

/-- The submission form handler: validate, then call
`APIService.createSubmission`; a validation failure aborts before any
service call, so nothing is inserted or updated. -/
def clientSubmit (st : DBState) (sid aid link : String) (now : Nat) (newId : String) :
    Except ApiError Unit × DBState :=
  match validateRepoLink link with
  | .error e => (.error e, st)
  | .ok _ => apiCreateSubmission st sid aid link now newId

/-- The spec's notion of "a GitHub domain" as a property of the URL's
host: `github.com` itself or any subdomain of it. -/
def isGitHubHost (h : String) : Prop :=
  h = "github.com" ∨ ∃ pre, h = pre ++ ".github.com"

theorem strMkData (l : List Char) : (String.mk l).data = l := rfl

theorem strDataAppend (a b : String) : (a ++ b).data = a.data ++ b.data := by
  cases a
  cases b
  rfl

theorem leadsWith_self (need : List Char) :
    ∀ post, leadsWith need (need ++ post) = true := by
  induction need with
  | nil => intro post; rfl
  | cons c cs ih => intro post; simp [leadsWith, ih post]

theorem hasSub_head (need hay : List Char) (h : leadsWith need hay = true) :
    hasSub need hay = true := by
  cases hay with
  | nil => exact h
  | cons c cs => simp [hasSub, h]

theorem hasSub_of_parts (need : List Char) :
    ∀ pre post : List Char, hasSub need (pre ++ (need ++ post)) = true := by
  intro pre
  induction pre with
  | nil => intro post; exact hasSub_head need (need ++ post) (leadsWith_self need post)
  | cons p ps ih =>
    intro post
    show (leadsWith need (p :: (ps ++ (need ++ post))) || hasSub need (ps ++ (need ++ post)))
      = true
    rw [ih post]
    simp

theorem splitScheme_eq : ∀ (cs sch r : List Char), splitScheme cs = some (sch, r) →
    cs = sch ++ ':' :: '/' :: '/' :: r := by
  intro cs
  induction cs with
  | nil => intro sch r h; cases h
  | cons c tail ih =>
    intro sch r h
    cases tail with
    | nil => simp [splitScheme] at h
    | cons d1 tail1 =>
      cases tail1 with
      | nil => simp [splitScheme] at h
      | cons d2 r2 =>
        simp only [splitScheme] at h
        by_cases hc : c = ':'
        · rw [if_pos hc] at h
          subst hc
          by_cases hd : d1 = '/' ∧ d2 = '/'
          · rw [if_pos hd] at h
            injection h with h2
            injection h2 with ha hb
            subst ha
            subst hb
            obtain ⟨rfl, rfl⟩ := hd
            rfl
          · rw [if_neg hd] at h
            cases h
        · rw [if_neg hc] at h
          cases hs : splitScheme (d1 :: d2 :: r2) with
          | none => rw [hs] at h; cases h
          | some p =>
            obtain ⟨sch2, rr⟩ := p
            rw [hs] at h
            simp only [Option.some.injEq, Prod.mk.injEq] at h
            obtain ⟨ha, hb⟩ := h
            subst ha
            subst hb
            rw [List.cons_append]
            exact congrArg (List.cons c) (ih sch2 rr hs)

/-- The host a successful parse returns is a contiguous piece of the
input, sitting right after `scheme://`. -/
theorem jsURL_host_parts (s : String) (u : URLRec) (h : jsURL s = some u) :
    ∃ pre post, s.data = pre ++ (u.host.data ++ post) := by
  unfold jsURL at h
  cases hs : splitScheme s.data with
  | none => rw [hs] at h; cases h
  | some p =>
    obtain ⟨sch, r⟩ := p
    rw [hs] at h
    have h2 : (if sch ≠ [] ∧ sch.all Char.isAlpha ∧ r.takeWhile hostChar ≠ [] then
        some (⟨String.mk sch, String.mk (r.takeWhile hostChar),
               String.mk (r.dropWhile hostChar)⟩ : URLRec)
      else none) = some u := h
    by_cases hc : sch ≠ [] ∧ sch.all Char.isAlpha ∧ r.takeWhile hostChar ≠ []
    · rw [if_pos hc] at h2
      injection h2 with h3
      subst h3
      refine ⟨sch ++ [':', '/', '/'], r.dropWhile hostChar, ?_⟩
      rw [splitScheme_eq s.data sch r hs]
      show sch ++ ':' :: '/' :: '/' :: r =
        (sch ++ [':', '/', '/']) ++ (r.takeWhile hostChar ++ r.dropWhile hostChar)
      rw [List.takeWhile_append_dropWhile, List.append_assoc]
      rfl
    · rw [if_neg hc] at h2
      cases h2

/-- A parsed URL whose host is a GitHub domain always contains the text
`github.com`, hence always clears the handler's validation. -/
theorem validate_ok_of_github_host (link : String) (u : URLRec)
    (hu : jsURL link = some u) (hg : isGitHubHost u.host) :
    validateRepoLink link = .ok () := by
  obtain ⟨pre, post, hparts⟩ := jsURL_host_parts link u hu
  have hinc : strIncludes link "github.com" = true := by
    unfold strIncludes
    rcases hg with hg | ⟨hp, hg⟩
    · rw [hg] at hparts
      rw [hparts]
      exact hasSub_of_parts _ pre post
    · rw [hg, strDataAppend] at hparts
      have hdot : ".github.com".data = '.' :: "github.com".data := rfl
      rw [hdot] at hparts
      have hshape : pre ++ ((hp.data ++ '.' :: "github.com".data) ++ post) =
          ((pre ++ hp.data) ++ ['.']) ++ ("github.com".data ++ post) := by
        simp [List.append_assoc]
      rw [hparts, hshape]
      exact hasSub_of_parts _ ((pre ++ hp.data) ++ ['.']) post
  simp [validateRepoLink, hu, hinc]

/-- Claim C3, amended: the validation performed by the system is the
browser form handler's — reject when `new URL` throws or when the URL
text lacks the substring `github.com`, in both cases with a validation
error and without touching stored state; every well-formed URL whose host
is a GitHub domain (any path depth) passes it.  (As stated the claim
fails in two ways: the handler's substring test also accepts well-formed
URLs on non-GitHub hosts whose text contains `github.com` elsewhere — see
the counterexample — and the server route itself accepts any non-empty
`repoLink` with no URL validation at all, as the last conjunct records.) -/
theorem c3_validation_amended (st : DBState) (sid aid : String) (now : Nat) (newId : String) :
    (∀ link, jsURL link = none →
      clientSubmit st sid aid link now newId = (.error .validationError, st)) ∧
    (∀ link u, jsURL link = some u → strIncludes link "github.com" = false →
      clientSubmit st sid aid link now newId = (.error .validationError, st)) ∧
    (∀ link u, jsURL link = some u → isGitHubHost u.host → validateRepoLink link = .ok ()) ∧
    (∀ link a, link ≠ "" → aid ≠ "" → findAssignment st.assignments aid = some a →
      ¬ a.deadline < now → (createOrUpdateSubmission st sid aid link now newId).1 = .ok ()) := by
  refine ⟨?_, ?_, ?_, ?_⟩
  · intro link hn
    simp [clientSubmit, validateRepoLink, hn]
  · intro link u hu hinc
    simp [clientSubmit, validateRepoLink, hu, hinc]
  · intro link u hu hg
    exact validate_ok_of_github_host link u hu hg
  · intro link a hlink haid hfind hdl
    simp [createOrUpdateSubmission, haid, hlink, hfind, hdl]

/-- Witness for C3's amended theorem: a string that is not a URL at all is
rejected by the handler with a validation error and the state is
untouched. -/
theorem c3_validation_amended_witness :
    clientSubmit stateNoSub "stud1" "assign1" "notaurl" 50 "n1" =
      (.error .validationError, stateNoSub) :=
  (c3_validation_amended stateNoSub "stud1" "assign1" 50 "n1").1 "notaurl" rfl

/-- Counterexample to C3 as stated: `https://evil.com/github.com` is a
well-formed URL whose host `evil.com` is no GitHub domain, so the claim
requires a `ValidationError` with nothing inserted — but the handler's
substring test accepts it and the submission is stored. -/
theorem c3_counterexample :
    jsURL "https://evil.com/github.com" =
      some { scheme := "https", host := "evil.com", rest := "/github.com" } ∧
    ¬ isGitHubHost "evil.com" ∧
    clientSubmit stateNoSub "stud1" "assign1" "https://evil.com/github.com" 50 "n1" =
      (.ok (), { users := [profSmith, johnDoe], assignments := [assignWeb],
                 submissions := [{ id := "n1", assignment_id := "assign1", student_id := "stud1",
                                   repo_link := "https://evil.com/github.com", submitted_at := 50,
                                   status := "submitted" }] }) := by
  refine ⟨rfl, ?_, rfl⟩
  rintro (h | ⟨pre, h⟩)
  · exact absurd h (by decide)
  · have hlen : "evil.com".data.length = (pre ++ ".github.com").data.length := by rw [h]
    have h2 : (pre ++ ".github.com").data.length = pre.data.length + 11 := by
      rw [strDataAppend, List.length_append]
      have h11 : ".github.com".data.length = 11 := by decide
      omega
    have h3 : "evil.com".data.length = 8 := rfl
    omega
